import Mathlib

/-
Verification development for the kitty search kitten
(`.config/kitty/search.py`): a shallow embedding of the word/token
navigation engine (`reindex`, `Search._delete_word`,
`Search._move_word_left`, `Search._move_word_right`), the
`text_marked` flag logic, smart-case marker creation with debouncing,
and the quit transitions.  Strings are `List Char`; the external
remote-control channel is modelled as a list of emitted calls.
-/

set_option autoImplicit false

/-- ASCII model of the regex character class `\s`. -/
def isSpaceChar (c : Char) : Bool :=
  c = ' ' || c = '\t' || c = '\n' || c = '\r' || c = '\x0b' || c = '\x0c'

/-- Model of the regex class `\w` (`[A-Za-z0-9_]` plus digits). -/
def isWordChar (c : Char) : Bool :=
  c.isAlphanum || c = '_'

/-- Complement class `[^\w\d]` used by the token-level patterns. -/
def isNonAlnum (c : Char) : Bool :=
  !(isWordChar c)

/-- The delimiter regexes of the kitten: a character class repeated
(`p+`), optionally anchored at the end (`p+$`) or the start (`^p+`). -/
inductive Patt where
  | plus (p : Char → Bool)
  | plusEnd (p : Char → Bool)
  | plusStart (p : Char → Bool)

/-- Maximal runs of characters satisfying `p` in a list, as half-open
spans with absolute indices starting at `i`: this is the semantics of
`re.finditer` for a greedy `p+` pattern. -/
def runsAux (p : Char → Bool) : List Char → Nat → List (Nat × Nat)
  | [], _ => []
  | c :: rest, i =>
    let tl := runsAux p rest (i + 1)
    if p c then
      match tl with
      | (s, e) :: rs => if s = i + 1 then (i, e) :: rs else (i, i + 1) :: tl
      | [] => [(i, i + 1)]
    else tl

/-- `re.finditer` for the three pattern shapes: all maximal runs for
`p+`; the leading run only (if the text starts with one) for `^p+`; the
trailing run only (if the text ends with one) for `p+$`. -/
def matchesOf : Patt → List Char → List (Nat × Nat)
  | Patt.plus p, s => runsAux p s 0
  | Patt.plusStart p, s =>
    match runsAux p s 0 with
    | (0, e) :: _ => [(0, e)]
    | _ => []
  | Patt.plusEnd p, s =>
    match (runsAux p s 0).getLast? with
    | some (st, e) => if e = s.length then [(st, e)] else []
    | none => []

/-- `re.Pattern.search`: the span of the first (leftmost) match. -/
def patt_search (patt : Patt) (s : List Char) : Option (Nat × Nat) :=
  (matchesOf patt s).head?

/-- `reindex` from the source: the span of the first match when
`right = false` (via `pattern.search`), and the span of the last match
of the full forward enumeration (`finditer`) when `right = true`.
`none` models the `ValueError` the source raises when there is no
match. -/
def reindex (text : List Char) (patt : Patt) (right : Bool) : Option (Nat × Nat) :=
  if right then
    match matchesOf patt text with
    | [] => none
    | ms => ms.getLast?
  else
    patt_search patt text

/-- `SPACE_PATTERN = re.compile(r"\s+")`. -/
def SPACE_PATTERN : Patt := Patt.plus isSpaceChar

/-- `SPACE_PATTERN_END = re.compile(r"\s+$")`. -/
def SPACE_PATTERN_END : Patt := Patt.plusEnd isSpaceChar

/-- `SPACE_PATTERN_START = re.compile(r"^\s+")`. -/
def SPACE_PATTERN_START : Patt := Patt.plusStart isSpaceChar

/-- `NON_ALPHANUM_PATTERN = re.compile(r"[^\w\d]+")`. -/
def NON_ALPHANUM_PATTERN : Patt := Patt.plus isNonAlnum

/-- `NON_ALPHANUM_PATTERN_END = re.compile(r"[^\w\d]+$")`. -/
def NON_ALPHANUM_PATTERN_END : Patt := Patt.plusEnd isNonAlnum

/-- `NON_ALPHANUM_PATTERN_START = re.compile(r"^[^\w\d]+")`. -/
def NON_ALPHANUM_PATTERN_START : Patt := Patt.plusStart isNonAlnum

/-- Modelled from the spec: the LineBuffer contract of the external
`LineEdit` collaborator (spec section 4.3; the class itself lives in
kitty, outside this repository): a single-line text with a cursor in
`[0, len]`. -/
structure LineEdit where
  text : List Char
  cursor : Nat
  deriving DecidableEq

/-- Modelled from the spec: `split_at_cursor` returns the text before
and after the cursor. -/
def LineEdit.split_at_cursor (le : LineEdit) : List Char × List Char :=
  (le.text.take le.cursor, le.text.drop le.cursor)

/-- Modelled from the spec: `backspace n` removes up to `n` characters
immediately before the cursor. -/
def LineEdit.backspace (le : LineEdit) (n : Nat) : LineEdit :=
  let m := min n le.cursor
  ⟨le.text.take (le.cursor - m) ++ le.text.drop le.cursor, le.cursor - m⟩

/-- Modelled from the spec: `left n` moves the cursor `n` positions
left, clamped at the start of the buffer. -/
def LineEdit.left (le : LineEdit) (n : Nat) : LineEdit :=
  ⟨le.text, le.cursor - n⟩

/-- Modelled from the spec: `right n` moves the cursor `n` positions
right, clamped at the end of the buffer. -/
def LineEdit.right (le : LineEdit) (n : Nat) : LineEdit :=
  ⟨le.text, min (le.cursor + n) le.text.length⟩

/-- Python slice `s[:i]` with a possibly negative bound `i`:
`s[:-k]` drops the final `k` characters. -/
def py_slice_to (s : List Char) (i : Int) : List Char :=
  if 0 ≤ i then s.take i.toNat else s.take (s.length - i.natAbs)

/-- Python `str.rindex`: index of the last occurrence of a character
(`none` models the `ValueError` on absence). -/
def py_rindex (s : List Char) (c : Char) : Option Nat :=
  match s with
  | [] => none
  | a :: rest =>
    match py_rindex rest c with
    | some i => some (i + 1)
    | none => if a = c then some 0 else none

/-- Python `str.index`: index of the first occurrence of a character
(`none` models the `ValueError` on absence). -/
def py_index (s : List Char) (c : Char) : Option Nat :=
  match s with
  | [] => none
  | a :: rest =>
    if a = c then some 0 else (py_index rest c).map (· + 1)

/-- `Search._delete_word`: delete the word before the cursor, using
whitespace (`use_whitespace = true`) or non-alphanumeric delimiters.
Translated line by line from the source, including the `-1` sentinel
that a failed end-anchored search leaves in `start` (so the subsequent
Python slice `before[:start]` drops the final character). -/
def Search.delete_word (use_whitespace : Bool) (le : LineEdit) : LineEdit :=
  let before := le.split_at_cursor.1
  if use_whitespace then
    let start : Int :=
      match reindex before SPACE_PATTERN_END true with
      | some (st, _) => (st : Int)
      | none => -1
    let space : Nat := (py_rindex (py_slice_to before start) ' ').getD 0
    le.backspace (before.length - space)
  else
    match reindex before NON_ALPHANUM_PATTERN_END true with
    | some (st, _) => le.backspace (before.length - st)
    | none =>
      match reindex before NON_ALPHANUM_PATTERN true with
      | some (st, _) => le.backspace (before.length - (st + 1))
      | none => le.backspace before.length

/-- `Search._move_word_left`: identical boundary computation to
`Search.delete_word`, but moves the cursor instead of deleting. -/
def Search.move_word_left (use_whitespace : Bool) (le : LineEdit) : LineEdit :=
  let before := le.split_at_cursor.1
  if use_whitespace then
    let start : Int :=
      match reindex before SPACE_PATTERN_END true with
      | some (st, _) => (st : Int)
      | none => -1
    let space : Nat := (py_rindex (py_slice_to before start) ' ').getD 0
    le.left (before.length - space)
  else
    match reindex before NON_ALPHANUM_PATTERN_END true with
    | some (st, _) => le.left (before.length - st)
    | none =>
      match reindex before NON_ALPHANUM_PATTERN true with
      | some (st, _) => le.left (before.length - (st + 1))
      | none => le.left before.length

/-- `Search._move_word_right`: move the cursor right by one word/token.
Translated line by line from the source; note that the whitespace branch
uses `after[end:].index(' ')`, a position relative to the sliced string,
as the basis of the move amount. -/
def Search.move_word_right (use_whitespace : Bool) (le : LineEdit) : LineEdit :=
  let after := le.split_at_cursor.2
  if use_whitespace then
    let e : Nat :=
      match reindex after SPACE_PATTERN_START false with
      | some (_, en) => en
      | none => 0
    let space : Nat :=
      match py_index (after.drop e) ' ' with
      | some i => i + 1
      | none => after.length
    le.right space
  else
    let e : Nat :=
      match reindex after NON_ALPHANUM_PATTERN_START false with
      | some (_, en) => en
      | none => 0
    if 0 < e then le.right e
    else
      match reindex after NON_ALPHANUM_PATTERN false with
      | some (_, en) => le.right (en - 1)
      | none => le.right after.length

/-- Python `str.islower`: at least one cased character and every cased
character lowercase (over this model's character predicates, "every
cased character is lowercase" is "no uppercase character"). -/
def islower (s : List Char) : Bool :=
  s.any (fun c => c.isLower || c.isUpper) && s.all (fun c => !c.isUpper)

/-- The match-type token built in `Search.mark`:
`match_case = "i" if text.islower() else ""` prepended to the mode. -/
def Search.match_type (text : List Char) (mode : String) : String :=
  (if islower text then "i" else "") ++ mode

/-- Calls emitted on the external remote-control channel that the
claims observe: marker creation, marker removal, scroll-to-end. -/
inductive RCCall where
  | createMarker (window_id : Nat) (match_type : String) (text : List Char)
  | removeMarker (window_id : Nat)
  | scrollEnd (window_id : Nat)
  deriving DecidableEq

/-- The debouncing state of `Search.mark`:
`_last_mark_text` and `_last_mark_time`. -/
structure MarkState where
  last_mark_text : List Char
  last_mark_time : ℚ
  deriving DecidableEq

/-- `Search.MARK_DEBOUNCE_INTERVAL = 0.05` seconds. -/
def MARK_DEBOUNCE_INTERVAL : ℚ := 1 / 20

/-- `Search.mark`: create search markers in the target windows, with
debouncing.  Returns the updated debounce state and the emitted
remote-control calls. -/
def Search.mark (window_ids : List Nat) (mode : String) (text : List Char)
    (now : ℚ) (st : MarkState) : MarkState × List RCCall :=
  if window_ids = [] then (st, [])
  else if text = st.last_mark_text ∧ now - st.last_mark_time < MARK_DEBOUNCE_INTERVAL then
    (st, [])
  else
    let st2 : MarkState := ⟨text, now⟩
    if text = [] then (st2, window_ids.map RCCall.removeMarker)
    else (st2, window_ids.map (fun w => RCCall.createMarker w (Search.match_type text mode) text))

/-- The persisted key-value store: `last_search` and `mode`. -/
structure CachedValues where
  last_search : List Char
  mode : String
  deriving DecidableEq

/-- `Search.quit`: persist the current input as `last_search`, remove
all markers, and on a nonzero return code (cancel) additionally scroll
every target window to the end. -/
def Search.quit (cached : CachedValues) (window_ids : List Nat)
    (current_input : List Char) (return_code : Nat) : CachedValues × List RCCall :=
  ({ cached with last_search := current_input },
    window_ids.map RCCall.removeMarker ++
      if return_code ≠ 0 then window_ids.map RCCall.scrollEnd else [])

/-- `Search.on_interrupt`: the interrupt signal triggers the cancel
transition `quit(1)`. -/
def Search.on_interrupt (cached : CachedValues) (window_ids : List Nat)
    (current_input : List Char) : CachedValues × List RCCall :=
  Search.quit cached window_ids current_input 1

/-- `Search.on_eot`: end-of-input triggers the cancel transition
`quit(1)`. -/
def Search.on_eot (cached : CachedValues) (window_ids : List Nat)
    (current_input : List Char) : CachedValues × List RCCall :=
  Search.quit cached window_ids current_input 1

/-- The key event types of the host (`kitty.key_encoding.EventType`). -/
inductive EventType where
  | press
  | repeatEv
  | release
  deriving DecidableEq

/-- A key event as `Search.on_key` observes it: the key name and the
event type. -/
structure KeyEvent where
  key : String
  type : EventType
  deriving DecidableEq

/-- The `modifier_keys` set of `Search._should_clear_mark` (note that it
contains `"TAB"` alongside the modifier keys). -/
def modifier_keys : List String :=
  ["TAB", "LEFT_CONTROL", "RIGHT_CONTROL", "LEFT_ALT", "RIGHT_ALT",
   "LEFT_SHIFT", "RIGHT_SHIFT", "LEFT_SUPER", "RIGHT_SUPER"]

/-- `Search._should_clear_mark`: the mark is cleared when it is set, the
event is a press, and the key is not in `modifier_keys`. -/
def Search.should_clear_mark (text_marked : Bool) (ev : KeyEvent) : Bool :=
  text_marked && ev.type == EventType.press && !(modifier_keys.contains ev.key)

/-- The evolution of the `text_marked` flag across `Search.on_key`: the
only write to the flag in `on_key` is the clear guarded by
`Search.should_clear_mark`; no other branch of `on_key` assigns it. -/
def Search.on_key_text_marked (text_marked : Bool) (ev : KeyEvent) : Bool :=
  if Search.should_clear_mark text_marked ev then false else text_marked

/-- The session state assembled by `Search.__init__`. -/
structure SearchState where
  line_edit : LineEdit
  text_marked : Bool
  mode : String
  mark_state : MarkState
  deriving DecidableEq

/-- `Search.__init__`: restore the persisted last search into the line
editor (cursor at the end), set `text_marked = bool(last_search)`,
initialise the debounce state to `("", 0.0)`, and call `Search.mark`
once before any input event. -/
def Search.init (cached : CachedValues) (window_ids : List Nat)
    (now : ℚ) : SearchState × List RCCall :=
  let last_search := cached.last_search
  let line_edit : LineEdit := ⟨last_search, last_search.length⟩
  let text_marked := !last_search.isEmpty
  let st0 : MarkState := ⟨[], 0⟩
  let res := Search.mark window_ids cached.mode last_search now st0
  (⟨line_edit, text_marked, cached.mode, res.1⟩, res.2)

/-- Modelled from the spec: the "pure modifier keys" named by the claim
about mark clearing — the modifier set without `"TAB"`. -/
def spec_pure_modifier_keys : List String :=
  ["LEFT_CONTROL", "RIGHT_CONTROL", "LEFT_ALT", "RIGHT_ALT",
   "LEFT_SHIFT", "RIGHT_SHIFT", "LEFT_SUPER", "RIGHT_SUPER"]

/-- Modelled from the spec: "contains no uppercase character", the
smart-case condition as the claim words it. -/
def no_uppercase (s : List Char) : Bool :=
  s.all (fun c => !c.isUpper)

/-- Spans listed in forward order: each span ends no later than the next
one starts. -/
def spans_ordered : List (Nat × Nat) → Bool
  | [] => true
  | [_] => true
  | a :: b :: t => decide (a.2 ≤ b.1) && spans_ordered (b :: t)

/-- `is_scroll` recognises the scroll-to-end remote-control calls. -/
def is_scroll : RCCall → Bool
  | RCCall.scrollEnd _ => true
  | _ => false

/-- Every span produced by `runsAux p l i` is a nonempty half-open span
inside `[i, i + l.length]`, and the spans are listed in forward order. -/
theorem runsAux_sound (p : Char → Bool) :
    ∀ (l : List Char) (i : Nat),
      (∀ m ∈ runsAux p l i, i ≤ m.1 ∧ m.1 < m.2 ∧ m.2 ≤ i + l.length) ∧
      spans_ordered (runsAux p l i) = true := by
  intro l
  induction l with
  | nil => intro i; exact ⟨by intro m hm; simp [runsAux] at hm, rfl⟩
  | cons c rest ih =>
    intro i
    obtain ⟨ihm, iho⟩ := ih (i + 1)
    by_cases hp : p c = true
    · cases htl : runsAux p rest (i + 1) with
      | nil =>
        have hv : runsAux p (c :: rest) i = [(i, i + 1)] := by
          simp [runsAux, hp, htl]
        rw [hv]
        constructor
        · intro m hm
          simp at hm
          subst hm
          exact ⟨Nat.le_refl i, Nat.lt_succ_self i,
            show i + 1 ≤ i + (rest.length + 1) by omega⟩
        · rfl
      | cons hd tlist =>
        obtain ⟨s1, e1⟩ := hd
        rw [htl] at ihm iho
        by_cases hs : s1 = i + 1
        · have hv : runsAux p (c :: rest) i = (i, e1) :: tlist := by
            simp [runsAux, hp, htl, hs]
          rw [hv]
          constructor
          · intro m hm
            rcases List.mem_cons.mp hm with rfl | hm2
            · have h1 := ihm (s1, e1) (List.mem_cons_self _ _)
              simp at h1 ⊢
              omega
            · have h2 := ihm m (List.mem_cons_of_mem _ hm2)
              refine ⟨by omega, h2.2.1, ?_⟩
              have h3 := h2.2.2
              simp [List.length_cons]
              omega
          · cases tlist with
            | nil => rfl
            | cons b tb =>
              have h2 : spans_ordered ((s1, e1) :: b :: tb) = true := iho
              simp [spans_ordered] at h2 ⊢
              exact h2
        · have hv : runsAux p (c :: rest) i = (i, i + 1) :: (s1, e1) :: tlist := by
            simp [runsAux, hp, htl, hs]
          rw [hv]
          constructor
          · intro m hm
            rcases List.mem_cons.mp hm with rfl | hm2
            · exact ⟨Nat.le_refl i, Nat.lt_succ_self i,
                show i + 1 ≤ i + (rest.length + 1) by omega⟩
            · have h2 := ihm m hm2
              refine ⟨by omega, h2.2.1, ?_⟩
              have h3 := h2.2.2
              simp [List.length_cons]
              omega
          · have h1 := ihm (s1, e1) (List.mem_cons_self _ _)
            simp at h1
            simp [spans_ordered]
            exact ⟨by omega, iho⟩
    · have hv : runsAux p (c :: rest) i = runsAux p rest (i + 1) := by
        simp [runsAux, hp]
      rw [hv]
      refine ⟨fun m hm => ?_, iho⟩
      have h2 := ihm m hm
      refine ⟨by omega, h2.2.1, ?_⟩
      have h3 := h2.2.2
      simp [List.length_cons]
      omega

/-- Every match span reported by `matchesOf` is a nonempty half-open
span inside the searched text. -/
theorem matchesOf_mem_bounds (patt : Patt) (s : List Char) :
    ∀ m ∈ matchesOf patt s, m.1 < m.2 ∧ m.2 ≤ s.length := by
  intro m hm
  cases patt with
  | plus p =>
    have h := (runsAux_sound p s 0).1 m hm
    exact ⟨h.2.1, by have := h.2.2; omega⟩
  | plusStart p =>
    simp only [matchesOf] at hm
    cases hr : runsAux p s 0 with
    | nil => rw [hr] at hm; simp at hm
    | cons hd t =>
      obtain ⟨s1, e1⟩ := hd
      rw [hr] at hm
      cases s1 with
      | zero =>
        simp at hm
        subst hm
        have h := (runsAux_sound p s 0).1 (0, e1) (by rw [hr]; exact List.mem_cons_self _ _)
        exact ⟨h.2.1, by have := h.2.2; omega⟩
      | succ n => simp at hm
  | plusEnd p =>
    simp only [matchesOf] at hm
    cases hg : (runsAux p s 0).getLast? with
    | none => rw [hg] at hm; simp at hm
    | some pr =>
      obtain ⟨s1, e1⟩ := pr
      rw [hg] at hm
      by_cases he : e1 = s.length
      · subst he
        simp at hm
        subst hm
        have h := (runsAux_sound p s 0).1 (s1, s.length) (List.mem_of_getLast?_eq_some hg)
        exact ⟨h.2.1, Nat.le_refl _⟩
      · simp [he] at hm

/-- The match list of `matchesOf` is in forward (left-to-right)
enumeration order. -/
theorem matchesOf_ordered (patt : Patt) (s : List Char) :
    spans_ordered (matchesOf patt s) = true := by
  cases patt with
  | plus p => exact (runsAux_sound p s 0).2
  | plusStart p =>
    simp only [matchesOf]
    cases hr : runsAux p s 0 with
    | nil => rfl
    | cons hd t =>
      obtain ⟨s1, e1⟩ := hd
      cases s1 with
      | zero => rfl
      | succ n => rfl
  | plusEnd p =>
    simp only [matchesOf]
    cases hg : (runsAux p s 0).getLast? with
    | none => rfl
    | some pr =>
      obtain ⟨s1, e1⟩ := pr
      by_cases he : e1 = s.length
      · simp [he, spans_ordered]
      · simp [he, spans_ordered]

/-- C9: for every string and delimiter pattern, `reindex` in
right-to-left mode returns the half-open span of the last match of the
forward (left-to-right) enumeration, in left-to-right mode the span of
the first match, and it returns `none` (the source raises `ValueError`)
exactly when the pattern has zero matches; all reported spans are
nonempty half-open spans inside the text, listed in forward order. -/
theorem c9_reindex_spec (s : List Char) (patt : Patt) :
    reindex s patt false = (matchesOf patt s).head? ∧
    reindex s patt true = (matchesOf patt s).getLast? ∧
    (reindex s patt false = none ↔ matchesOf patt s = []) ∧
    (reindex s patt true = none ↔ matchesOf patt s = []) ∧
    ((matchesOf patt s).all fun m => decide (m.1 < m.2) && decide (m.2 ≤ s.length)) = true ∧
    spans_ordered (matchesOf patt s) = true := by
  have hlast : reindex s patt true = (matchesOf patt s).getLast? := by
    unfold reindex
    cases h : matchesOf patt s with
    | nil => simp [h]
    | cons a t => simp
  refine ⟨rfl, hlast, ?_, ?_, ?_, matchesOf_ordered patt s⟩
  · unfold reindex patt_search
    simp [List.head?_eq_none_iff]
  · rw [hlast]
    simp [List.getLast?_eq_none_iff]
  · rw [List.all_eq_true]
    intro m hm
    have h := matchesOf_mem_bounds patt s m hm
    simp [h.1, h.2]

/-- `Search.move_word_left` always ends in a single `LineEdit.left`
call, whatever branch is taken. -/
theorem move_word_left_eq_left (ws : Bool) (le : LineEdit) :
    ∃ n, Search.move_word_left ws le = le.left n := by
  unfold Search.move_word_left
  cases ws
  · simp only [Bool.false_eq_true, if_false]
    split
    · exact ⟨_, rfl⟩
    · split
      · exact ⟨_, rfl⟩
      · exact ⟨_, rfl⟩
  · simp only [if_true]
    exact ⟨_, rfl⟩

/-- `Search.move_word_right` always ends in a single `LineEdit.right`
call, whatever branch is taken. -/
theorem move_word_right_eq_right (ws : Bool) (le : LineEdit) :
    ∃ n, Search.move_word_right ws le = le.right n := by
  unfold Search.move_word_right
  cases ws
  · simp only [Bool.false_eq_true, if_false]
    split
    · exact ⟨_, rfl⟩
    · split
      · exact ⟨_, rfl⟩
      · exact ⟨_, rfl⟩
  · simp only [if_true]
    exact ⟨_, rfl⟩

/-- C1: evaluation of `Search._delete_word` (whitespace class) on the
claim's literal case "hello world" with the cursor at the end.  The code
deletes six characters (the word and the preceding space), leaving
"hello" with the cursor at 5 — not "hello " as the claim states. -/
theorem c1_delete_word_whitespace_eval :
    Search.delete_word true ⟨"hello world".toList, 11⟩ = ⟨"hello".toList, 5⟩ ∧
    (Search.delete_word true ⟨"hello world".toList, 11⟩).text ≠ "hello ".toList := by
  decide

/-- C2 counterexample: on "x ab cd" with the cursor at 3 (inside "ab"),
whitespace-class MoveLeftOneUnit lands at 1 and MoveRightOneUnit from
there lands at 4 — strictly past the original position 3 — while neither
motion clamps at a buffer boundary (the intermediate cursor is not 0 and
the final cursor is not the text length 7). -/
theorem c2_counterexample :
    (Search.move_word_left true ⟨"x ab cd".toList, 3⟩).cursor = 1 ∧
    (Search.move_word_right true (Search.move_word_left true ⟨"x ab cd".toList, 3⟩)).cursor = 4 ∧
    ¬(4 ≤ 3) ∧ (1 : Nat) ≠ 0 ∧ (4 : Nat) ≠ ("x ab cd".toList).length := by
  decide

/-- C2 (amended): each motion is one-directional and clamped —
`Search._move_word_left` never increases the cursor and keeps the text,
`Search._move_word_right` never decreases the cursor, keeps the text and
stays within the buffer; the round trip may still land strictly after
the original position. -/
theorem c2_motion_monotone (ws : Bool) (le : LineEdit) (h : le.cursor ≤ le.text.length) :
    (Search.move_word_left ws le).cursor ≤ le.cursor ∧
    (Search.move_word_left ws le).text = le.text ∧
    le.cursor ≤ (Search.move_word_right ws le).cursor ∧
    (Search.move_word_right ws le).cursor ≤ le.text.length ∧
    (Search.move_word_right ws le).text = le.text := by
  obtain ⟨n, hn⟩ := move_word_left_eq_left ws le
  obtain ⟨m, hm⟩ := move_word_right_eq_right ws le
  rw [hn, hm]
  refine ⟨Nat.sub_le _ _, rfl, ?_, ?_, rfl⟩
  · show le.cursor ≤ min (le.cursor + m) le.text.length
    omega
  · show min (le.cursor + m) le.text.length ≤ le.text.length
    omega

/-- C2 (amended) witness: instantiation on "a b" with the cursor at the
end. -/
theorem c2_motion_monotone_witness :
    (2 ≤ ("a b".toList).length) ∧
    ((Search.move_word_left true ⟨"a b".toList, 2⟩).cursor ≤ 2 ∧
     (Search.move_word_left true ⟨"a b".toList, 2⟩).text = "a b".toList ∧
     2 ≤ (Search.move_word_right true ⟨"a b".toList, 2⟩).cursor ∧
     (Search.move_word_right true ⟨"a b".toList, 2⟩).cursor ≤ ("a b".toList).length ∧
     (Search.move_word_right true ⟨"a b".toList, 2⟩).text = "a b".toList) :=
  ⟨by decide, c2_motion_monotone true ⟨"a b".toList, 2⟩ (by decide)⟩

/-- C3: evaluation of `Search._move_word_right` (whitespace class) on
" ab cd" with the cursor at 0.  The leading whitespace run has length
`end = 1` and the first space of `after[end:]` is at relative index 2;
the code moves right by `2 + 1 = 3`, landing ON that space at cursor 3,
not by `end + 2 + 1 = 4` (just past the space) as the claim states. -/
theorem c3_move_word_right_eval :
    Search.move_word_right true ⟨" ab cd".toList, 0⟩ = ⟨" ab cd".toList, 3⟩ ∧
    (Search.move_word_right true ⟨" ab cd".toList, 0⟩).cursor ≠ 4 := by
  decide

/-- C4: `Search._delete_word` with the non-alphanumeric class deletes
the trailing alphanumeric run of "foo-bar" (leaving "foo-"), and deletes
the trailing punctuation run of "foo-" as one unit (leaving "foo"). -/
theorem c4_delete_word_alnum :
    Search.delete_word false ⟨"foo-bar".toList, 7⟩ = ⟨"foo-".toList, 4⟩ ∧
    Search.delete_word false ⟨"foo-".toList, 4⟩ = ⟨"foo".toList, 3⟩ := by
  decide

/-- C5 counterexample: "TAB" is not a pure modifier key, yet a TAB press
while `text_marked` is set leaves the flag set, because the source's
`modifier_keys` set contains "TAB" alongside the modifiers. -/
theorem c5_counterexample :
    Search.on_key_text_marked true ⟨"TAB", EventType.press⟩ = true ∧
    spec_pure_modifier_keys.contains "TAB" = false := by
  decide

/-- C5 (amended): while `text_marked` is set, every key-press event
whose key is neither a pure modifier key nor "TAB" clears the flag. -/
theorem c5_clear_mark_amended (ev : KeyEvent)
    (h1 : ev.type = EventType.press)
    (h2 : ev.key ∉ spec_pure_modifier_keys)
    (h3 : ev.key ≠ "TAB") :
    Search.on_key_text_marked true ev = false := by
  have hmem : ev.key ∉ modifier_keys := by
    intro hm
    rcases List.mem_cons.mp hm with h | h
    · exact h3 h
    · exact h2 h
  have hc : modifier_keys.contains ev.key = false := by
    cases hb : modifier_keys.contains ev.key
    · rfl
    · exact absurd (List.mem_of_elem_eq_true hb) hmem
  simp [Search.on_key_text_marked, Search.should_clear_mark, h1, hc]
  exact hmem

/-- C5 (amended) witness: a press of the letter key "A" clears the
flag. -/
theorem c5_clear_mark_amended_witness :
    ("A" ∉ spec_pure_modifier_keys) ∧ ("A" : String) ≠ "TAB" ∧
    Search.on_key_text_marked true ⟨"A", EventType.press⟩ = false :=
  ⟨by decide, by decide,
    c5_clear_mark_amended ⟨"A", EventType.press⟩ rfl (by decide) (by decide)⟩

/-- C6 counterexample: the query "123" is non-empty and contains no
uppercase character, yet the match type in text mode is "text", not
"itext": Python's `str.islower` is false for strings without a cased
character. -/
theorem c6_counterexample :
    ("123".toList ≠ ([] : List Char)) ∧
    no_uppercase "123".toList = true ∧
    Search.match_type "123".toList "text" ≠ "itext" := by
  decide

/-- C6 (amended): for every non-empty query, the case-insensitivity flag
"i" is prepended to the mode exactly when the text is lowercase in
Python's sense — it contains at least one cased character and no
uppercase character; otherwise the bare mode name is used. -/
theorem c6_smart_case_amended (text : List Char) (mode : String) (h : text ≠ []) :
    (islower text = true → Search.match_type text mode = "i" ++ mode) ∧
    (islower text = false → Search.match_type text mode = mode) ∧
    islower text = ((text.any fun c => c.isLower || c.isUpper) && no_uppercase text) := by
  refine ⟨?_, ?_, rfl⟩
  · intro hi
    simp [Search.match_type, hi]
  · intro hi
    simp [Search.match_type, hi]

/-- C6 (amended) witness: "abc" in text mode yields "itext". -/
theorem c6_smart_case_amended_witness :
    ("abc".toList ≠ ([] : List Char)) ∧
    Search.match_type "abc".toList "text" = "itext" := by
  refine ⟨by decide, ?_⟩
  have h := (c6_smart_case_amended "abc".toList "text" (by decide)).1 (by decide)
  exact h.trans (by decide)

/-- C7: with a single target window and a fresh (text-changed, hence
unskipped) first mark request, a second request with identical text
within the 50 ms debounce interval emits no external call, so the pair
makes exactly one marker-creation call; a second request 50 ms or later
emits a second creation call; and a request whose text differs from the
previous call's text is never skipped. -/
theorem c7_debounce (w : Nat) (mode : String) (st0 st : MarkState)
    (text : List Char) (time1 time2 time3 : ℚ)
    (hne : text ≠ st0.last_mark_text) (ht : text ≠ [])
    (hne3 : text ≠ st.last_mark_text) :
    (Search.mark [w] mode text time1 st0).2
      = [RCCall.createMarker w (Search.match_type text mode) text] ∧
    (time2 - time1 < MARK_DEBOUNCE_INTERVAL →
      (Search.mark [w] mode text time2 (Search.mark [w] mode text time1 st0).1).2 = []) ∧
    (MARK_DEBOUNCE_INTERVAL ≤ time2 - time1 →
      (Search.mark [w] mode text time2 (Search.mark [w] mode text time1 st0).1).2
        = [RCCall.createMarker w (Search.match_type text mode) text]) ∧
    (Search.mark [w] mode text time3 st).2 ≠ [] := by
  have h1 : Search.mark [w] mode text time1 st0
      = (⟨text, time1⟩, [RCCall.createMarker w (Search.match_type text mode) text]) := by
    simp [Search.mark, hne, ht]
  refine ⟨by rw [h1], ?_, ?_, ?_⟩
  · intro hlt
    rw [h1]
    simp [Search.mark, hlt]
  · intro hge
    rw [h1]
    simp [Search.mark, ht, not_lt.mpr hge]
  · simp [Search.mark, hne3, ht]

/-- C7 witness: window 1, text "ab", first request at time 0 from the
initial debounce state, second request 10 ms later. -/
theorem c7_debounce_witness :
    ("ab".toList ≠ (⟨[], 0⟩ : MarkState).last_mark_text) ∧
    ("ab".toList ≠ ([] : List Char)) ∧
    ((Search.mark [1] "text" "ab".toList 0 ⟨[], 0⟩).2
        = [RCCall.createMarker 1 (Search.match_type "ab".toList "text") "ab".toList] ∧
      ((1 : ℚ) / 100 - 0 < MARK_DEBOUNCE_INTERVAL →
        (Search.mark [1] "text" "ab".toList ((1 : ℚ) / 100)
          (Search.mark [1] "text" "ab".toList 0 ⟨[], 0⟩).1).2 = []) ∧
      (MARK_DEBOUNCE_INTERVAL ≤ (1 : ℚ) / 100 - 0 →
        (Search.mark [1] "text" "ab".toList ((1 : ℚ) / 100)
          (Search.mark [1] "text" "ab".toList 0 ⟨[], 0⟩).1).2
          = [RCCall.createMarker 1 (Search.match_type "ab".toList "text") "ab".toList]) ∧
      (Search.mark [1] "text" "ab".toList 5 ⟨[], 0⟩).2 ≠ []) :=
  ⟨by decide, by decide,
    c7_debounce 1 "text" ⟨[], 0⟩ ⟨[], 0⟩ "ab".toList 0 ((1 : ℚ) / 100) 5
      (by decide) (by decide) (by decide)⟩

/-- C8: both exit transitions persist the current input as the last
search and remove markers from every target window; the cancel
transition (return code 1, also taken on interrupt and end-of-input)
additionally emits exactly one scroll-to-end call per target window,
while the commit transition (return code 0) emits no scroll call. -/
theorem c8_quit_transitions (cached : CachedValues) (window_ids : List Nat)
    (current_input : List Char) :
    (Search.quit cached window_ids current_input 0).1.last_search = current_input ∧
    (Search.quit cached window_ids current_input 1).1.last_search = current_input ∧
    (Search.quit cached window_ids current_input 0).2 = window_ids.map RCCall.removeMarker ∧
    (Search.quit cached window_ids current_input 1).2
      = window_ids.map RCCall.removeMarker ++ window_ids.map RCCall.scrollEnd ∧
    (Search.quit cached window_ids current_input 0).2.filter is_scroll = [] ∧
    (Search.quit cached window_ids current_input 1).2.filter is_scroll
      = window_ids.map RCCall.scrollEnd ∧
    Search.on_interrupt cached window_ids current_input
      = Search.quit cached window_ids current_input 1 ∧
    Search.on_eot cached window_ids current_input
      = Search.quit cached window_ids current_input 1 := by
  have hrm : ∀ ws : List Nat, (ws.map RCCall.removeMarker).filter is_scroll = [] := by
    intro ws
    induction ws with
    | nil => rfl
    | cons a t ih => simp [is_scroll, ih]
  have hsc : ∀ ws : List Nat,
      (ws.map RCCall.scrollEnd).filter is_scroll = ws.map RCCall.scrollEnd := by
    intro ws
    induction ws with
    | nil => rfl
    | cons a t ih => simp [is_scroll, ih]
  refine ⟨rfl, rfl, by simp [Search.quit], by simp [Search.quit], ?_, ?_, rfl, rfl⟩
  · simp [Search.quit, hrm]
  · simp [Search.quit, List.filter_append, hrm, hsc]

/-- C10: at construction the `text_marked` flag is true exactly when the
restored last-search term is non-empty, and with a non-empty restored
term and a non-empty window set the construction immediately emits one
marker-creation call per target window for that term with its smart-case
match type, before any user input event. -/
theorem c10_init_marking (cached : CachedValues) (window_ids : List Nat) (now : ℚ) :
    ((Search.init cached window_ids now).1.text_marked = true ↔ cached.last_search ≠ []) ∧
    (cached.last_search ≠ [] → window_ids ≠ [] →
      (Search.init cached window_ids now).2
        = window_ids.map (fun w =>
            RCCall.createMarker w (Search.match_type cached.last_search cached.mode)
              cached.last_search)) := by
  constructor
  · simp [Search.init]
  · intro hne hw
    simp only [Search.init]
    unfold Search.mark
    rw [if_neg hw, if_neg (by intro hand; exact hne hand.1), if_neg hne]

/-- C10 witness: restored term "ab" in text mode with target window 2
yields one creation call with the smart-case match type, and the flag is
initialised to true. -/
theorem c10_init_marking_witness :
    (("ab".toList : List Char) ≠ []) ∧ (([2] : List Nat) ≠ []) ∧
    (((Search.init ⟨"ab".toList, "text"⟩ [2] 0).1.text_marked = true ↔
        ("ab".toList : List Char) ≠ []) ∧
      (("ab".toList : List Char) ≠ [] → ([2] : List Nat) ≠ [] →
        (Search.init ⟨"ab".toList, "text"⟩ [2] 0).2
          = [2].map (fun w =>
              RCCall.createMarker w (Search.match_type "ab".toList "text") "ab".toList))) :=
  ⟨by decide, by decide, c10_init_marking ⟨"ab".toList, "text"⟩ [2] 0⟩
